import Mathlib

/-!
Verification of the SmartPark parking-management core.

This file gives a shallow embedding of the core logic of the repository — the
image preprocessor, the plate normalizer and validator from
`CameraScanner.tsx`, the duplicate guard and log-store operations from the
two `Index.tsx` variants and `parkingService.ts`, and the dashboard
query/export from `Dashboard.tsx` — and proves the claims of the specification
about them.  JavaScript `Date` values are modelled as integer milliseconds
since the epoch where the code does millisecond arithmetic, and as
broken-down UTC components where the code formats or parses ISO-8601
strings.  IEEE-754 doubles are modelled as exact rationals.
-/

namespace SmartPark

/-- Direction of a parking event (`"Entry" | "Exit"` in the source). -/
inductive EntryType where
  | Entry
  | Exit
deriving DecidableEq

/-- In-memory parking record (`ParkingEntry` in `Index.tsx`); the `Date`
timestamp is modelled as integer milliseconds since the epoch. -/
structure ParkingEntry where
  id : String
  plate_number : String
  timestamp : Int
  entry_type : EntryType
deriving DecidableEq

/-! ### Plate Normalizer (`cleanPlateNumber` in `CameraScanner.tsx`) -/

/-- Characters kept by the case-insensitive non-alphanumeric strip: with the
case-insensitive flag, ASCII letters of either case and digits survive. -/
def isPlateSourceChar (c : Char) : Bool :=
  ('A' ≤ c && c ≤ 'Z') || ('a' ≤ c && c ≤ 'z') || ('0' ≤ c && c ≤ '9')

/-- ASCII upper-casing: the behaviour of `String.prototype.toUpperCase` on the
alphanumeric characters that survive the filter. -/
def upperChar (c : Char) : Char :=
  if 'a' ≤ c ∧ c ≤ 'z' then Char.ofNat (c.toNat - 32) else c

/-- What a global single-character regex replacement does to one character. -/
def replChar (a b c : Char) : Char :=
  if c = a then b else c

/-- One global single-character replacement over the whole character list. -/
def replaceAll (a b : Char) (s : List Char) : List Char :=
  s.map (replChar a b)

/-- Function `cleanPlateNumber` from `CameraScanner.tsx`: strip non-alphanumerics,
upper-case, then the ten chained global replacements, in source order. -/
def cleanPlateNumber (text : String) : String :=
  let cleaned := (text.data.filter isPlateSourceChar).map upperChar
  let s1 := replaceAll 'O' '0' cleaned
  let s2 := replaceAll 'Q' '0' s1
  let s3 := replaceAll 'I' '1' s2
  let s4 := replaceAll 'L' '1' s3
  let s5 := replaceAll 'S' '5' s4
  let s6 := replaceAll 'Z' '2' s5
  let s7 := replaceAll 'G' '6' s6
  let s8 := replaceAll 'B' '8' s7
  let s9 := replaceAll 'D' '0' s8
  let s10 := replaceAll 'U' '0' s9
  String.mk s10

/-- The fixed ordered substitution table of the specification,
O→0, Q→0, I→1, L→1, S→5, Z→2, G→6, B→8, D→0, U→0 as a single
per-character map. -/
def substTable (c : Char) : Char :=
  if c = 'O' then '0'
  else if c = 'Q' then '0'
  else if c = 'I' then '1'
  else if c = 'L' then '1'
  else if c = 'S' then '5'
  else if c = 'Z' then '2'
  else if c = 'G' then '6'
  else if c = 'B' then '8'
  else if c = 'D' then '0'
  else if c = 'U' then '0'
  else c

/-! ### Plate validation and the capture acceptance rule (`CameraScanner.tsx`) -/

/-- Function `isValidPlateNumber` from `CameraScanner.tsx`: length within `[4,8]` and at
least one upper-case letter (`/[A-Z]/`) or one digit (`/[0-9]/`). -/
def isValidPlateNumber (plateNumber : String) : Bool :=
  if plateNumber.length < 4 || plateNumber.length > 8 then false
  else
    let hasLetters := plateNumber.data.any fun c => 'A' ≤ c && c ≤ 'Z'
    let hasNumbers := plateNumber.data.any fun c => '0' ≤ c && c ≤ '9'
    hasLetters || hasNumbers

/-- The acceptance test in `capture`:
`isValidPlateNumber(cleanedText) && confidence > 30`.  The OCR confidence, an
IEEE double in `[0,100]`, is modelled as an exact rational. -/
def captureAccepts (cleanedText : String) (confidence : ℚ) : Bool :=
  isValidPlateNumber cleanedText && decide (confidence > 30)

/-- The `extractedText` state after `capture`: the cleaned text when the
acceptance test passes, the empty string otherwise (and `confirmPlate` records
a plate only when `extractedText` is non-empty). -/
def extractedTextAfterCapture (cleanedText : String) (confidence : ℚ) : String :=
  if captureAccepts cleanedText confidence then cleanedText else ""

/-! ### Duplicate Guard and Log Store, local-storage variant (`Index.tsx`) -/

/-- Five minutes in milliseconds, the fixed duplicate-guard window
(`5 * 60 * 1000` in both `Index.tsx` variants and `parkingService.ts`). -/
def fiveMinutesMs : Int := 5 * 60 * 1000

namespace LocalStore

/-- The duplicate lookup in the local-storage `addParkingEntry`:
`parkingEntries.find(entry => entry.plate_number === plateNumber &&
entry.entry_type === entryType && entry.timestamp > fiveMinutesAgo)`. -/
def findRecentDuplicate (entries : List ParkingEntry) (plateNumber : String)
    (entryType : EntryType) (now : Int) : Option ParkingEntry :=
  let fiveMinutesAgo := now - fiveMinutesMs
  entries.find? fun entry =>
    entry.plate_number == plateNumber &&
      decide (entry.entry_type = entryType) &&
      decide (entry.timestamp > fiveMinutesAgo)

/-- Which user-visible toast `addParkingEntry` fires. -/
inductive AddResult where
  | duplicateDetected
  | recorded
deriving DecidableEq

/-- Function `addParkingEntry` from the local-storage `Index.tsx`: on a recent
duplicate, return without touching the list; otherwise prepend a fresh entry
stamped `now`.  Returns the updated list and the outcome. -/
def addParkingEntry (entries : List ParkingEntry) (plateNumber : String)
    (entryType : EntryType) (now : Int) (newId : String) :
    List ParkingEntry × AddResult :=
  match findRecentDuplicate entries plateNumber entryType now with
  | some _ => (entries, .duplicateDetected)
  | none =>
    ({ id := newId, plate_number := plateNumber, timestamp := now,
       entry_type := entryType } :: entries, .recorded)

/-- The duplicate criterion of the specification: an existing entry with exactly
the same plate string, the same direction, and a timestamp inside the trailing
five-minute window ending `now`. -/
def specDuplicate (entries : List ParkingEntry) (plateNumber : String)
    (entryType : EntryType) (now : Int) : Prop :=
  ∃ e ∈ entries, e.plate_number = plateNumber ∧ e.entry_type = entryType ∧
    now - fiveMinutesMs < e.timestamp ∧ e.timestamp ≤ now

end LocalStore

/-! ### Duplicate Guard and Log Store, remote-backed variant
(`parkingService.ts` and the supabase `Index.tsx`) -/

namespace RemoteStore

/-- Outcome of the supabase existence query in
`parkingService.checkDuplicateEntry`: a `{ data, error }` response — `error`
true when the query reported an error, `data` the possibly-null list of
matching row ids — or a thrown exception. -/
inductive QueryOutcome where
  | response (error : Bool) (data : Option (List String))
  | thrown
deriving DecidableEq

/-- Function `checkDuplicateEntry` from `parkingService.ts`, as a function of the
answer of the store: `false` on a reported error or a thrown exception, otherwise
whether `(data?.length || 0) > 0`. -/
def checkDuplicateEntry : QueryOutcome → Bool
  | .response true _ => false
  | .response false data => decide (0 < (data.map List.length).getD 0)
  | .thrown => false

/-- Which toast the remote-backed `addParkingEntry` fires: the duplicate
notice, the success notice, or the "Failed to Save Entry" notice from the
catch block. -/
inductive AddResult where
  | duplicateDetected
  | saved
  | saveFailed
deriving DecidableEq

/-- The remote-backed `addParkingEntry` (`Index.tsx`, supabase variant) as a
function of its two awaited results: `isDuplicate` from
`checkDuplicateEntry`, and `insertResult` from `insertEntry` — `none` models
both a null created row and a thrown insert error, since `insertEntry`
catches and returns null.  On `none` the code throws a failed-insert error
and the catch block reports failure; `setParkingEntries` runs only in
the success branch. -/
def addParkingEntry (entries : List ParkingEntry) (isDuplicate : Bool)
    (insertResult : Option ParkingEntry) : List ParkingEntry × AddResult :=
  if isDuplicate then (entries, .duplicateDetected)
  else
    match insertResult with
    | some newEntry => (newEntry :: entries, .saved)
    | none => (entries, .saveFailed)

end RemoteStore

/-! ### Image Preprocessor (`preprocessImage` in `CameraScanner.tsx`) -/

/-- One RGBA pixel of the canvas image data, each channel a byte value. -/
structure Pixel where
  r : ℕ
  g : ℕ
  b : ℕ
  a : ℕ
deriving DecidableEq

/-- Greyscale conversion `Math.round(0.299*r + 0.587*g + 0.114*b)`: the double arithmetic is
modelled as exact rationals, so the rounded grey level is
`⌊(299r + 587g + 114b)/1000 + 1/2⌋ = (299r + 587g + 114b + 500) / 1000`
in natural-number division. -/
def grayOf (p : Pixel) : ℕ :=
  (299 * p.r + 587 * p.g + 114 * p.b + 500) / 1000

/-- The body of the `preprocessImage` loop for one pixel: grey-scale,
contrast `2.0` and brightness `20`, hard `0`/`255` threshold at `128`, clamp
to `[0,255]`, write the result to R, G and B, leave alpha untouched. -/
def preprocessPixel (p : Pixel) : Pixel :=
  let gray := grayOf p
  let enhanced1 := gray * 2 + 20
  let enhanced2 := if enhanced1 > 128 then 255 else 0
  let enhanced3 := min 255 (max 0 enhanced2)
  { r := enhanced3, g := enhanced3, b := enhanced3, a := p.a }

/-- Function `preprocessImage`: the loop over the RGBA buffer, pixel by pixel. -/
def preprocessImage (frame : List Pixel) : List Pixel :=
  frame.map preprocessPixel

/-! ### ISO-8601 timestamps: `Date.prototype.toISOString` and `new Date(s)`

The persisted shape stores each timestamp as an ISO-8601 string.  A `Date`
value is modelled here as its broken-down UTC components; the calendar
arithmetic relating components to epoch milliseconds belongs to the JS
engine, not to this repository. -/

/-- A `Date` value as broken-down UTC components. -/
structure DateTimeUTC where
  year : ℕ
  month : ℕ
  day : ℕ
  hour : ℕ
  minute : ℕ
  second : ℕ
  millisecond : ℕ
deriving DecidableEq

/-- Field ranges of an in-range `Date`. -/
def ValidDateTime (t : DateTimeUTC) : Prop :=
  t.year < 10000 ∧ 1 ≤ t.month ∧ t.month ≤ 12 ∧ 1 ≤ t.day ∧ t.day ≤ 31 ∧
    t.hour < 24 ∧ t.minute < 60 ∧ t.second < 60 ∧ t.millisecond < 1000

/-- The decimal digit characters used by zero-padded formatting. -/
def digitChar (d : ℕ) : Char :=
  if d = 0 then '0' else if d = 1 then '1' else if d = 2 then '2'
  else if d = 3 then '3' else if d = 4 then '4' else if d = 5 then '5'
  else if d = 6 then '6' else if d = 7 then '7' else if d = 8 then '8'
  else '9'

/-- Two-digit zero-padded decimal rendering. -/
def pad2 (n : ℕ) : List Char := [digitChar (n / 10 % 10), digitChar (n % 10)]

/-- Three-digit zero-padded decimal rendering. -/
def pad3 (n : ℕ) : List Char :=
  [digitChar (n / 100 % 10), digitChar (n / 10 % 10), digitChar (n % 10)]

/-- Four-digit zero-padded decimal rendering. -/
def pad4 (n : ℕ) : List Char :=
  [digitChar (n / 1000 % 10), digitChar (n / 100 % 10), digitChar (n / 10 % 10),
    digitChar (n % 10)]

/-- Formatting by `Date.prototype.toISOString`: `YYYY-MM-DDTHH:mm:ss.sssZ`. -/
def toISOString (t : DateTimeUTC) : String :=
  String.mk (pad4 t.year ++ '-' :: pad2 t.month ++ '-' :: pad2 t.day ++
    'T' :: pad2 t.hour ++ ':' :: pad2 t.minute ++ ':' :: pad2 t.second ++
    '.' :: pad3 t.millisecond ++ ['Z'])

/-- Is `c` a decimal digit? -/
def isDigitChar (c : Char) : Bool := '0' ≤ c && c ≤ '9'

/-- Numeric value of a digit character. -/
def digitVal (c : Char) : ℕ := c.toNat - 48

/-- Parsing by `new Date(string)` on the ISO date-time format: accept exactly the
24-character `YYYY-MM-DDTHH:mm:ss.sssZ` shape, `none` (an invalid date)
otherwise. -/
def parseISOString (s : String) : Option DateTimeUTC :=
  match s.data with
  | [y3, y2, y1, y0, d1, mo1, mo0, d2, dd1, dd0, sT, h1, h0, c1, mi1, mi0, c2,
      ss1, ss0, dot, ms2, ms1, ms0, z] =>
    if d1 = '-' ∧ d2 = '-' ∧ sT = 'T' ∧ c1 = ':' ∧ c2 = ':' ∧ dot = '.' ∧
        z = 'Z' ∧
        ([y3, y2, y1, y0, mo1, mo0, dd1, dd0, h1, h0, mi1, mi0, ss1, ss0, ms2,
          ms1, ms0].all isDigitChar = true) then
      some
        { year := 1000 * digitVal y3 + 100 * digitVal y2 + 10 * digitVal y1 +
            digitVal y0
          month := 10 * digitVal mo1 + digitVal mo0
          day := 10 * digitVal dd1 + digitVal dd0
          hour := 10 * digitVal h1 + digitVal h0
          minute := 10 * digitVal mi1 + digitVal mi0
          second := 10 * digitVal ss1 + digitVal ss0
          millisecond := 100 * digitVal ms2 + 10 * digitVal ms1 + digitVal ms0 }
    else none
  | _ => none

/-! ### Local-storage persistence round trip (`Index.tsx`, localStorage
variant) -/

/-- A parking entry whose `Date` is viewed as broken-down UTC components. -/
structure ParkingEntryD where
  id : String
  plate_number : String
  timestamp : DateTimeUTC
  entry_type : EntryType
deriving DecidableEq

/-- The record shape persisted under the `"smartpark-entries"` key:
`JSON.stringify` serializes the `Date` via `toISOString` and the direction as
its string. -/
structure StoredEntry where
  id : String
  plate_number : String
  timestamp : String
  entry_type : String
deriving DecidableEq

/-- The direction as the persisted string. -/
def entryTypeString : EntryType → String
  | .Entry => "Entry"
  | .Exit => "Exit"

/-- Reading the persisted direction string back. -/
def entryTypeOfString (s : String) : Option EntryType :=
  if s = "Entry" then some .Entry
  else if s = "Exit" then some .Exit
  else none

/-- Serialization of one entry to the persisted JSON shape. -/
def serializeEntry (e : ParkingEntryD) : StoredEntry :=
  { id := e.id, plate_number := e.plate_number,
    timestamp := toISOString e.timestamp,
    entry_type := entryTypeString e.entry_type }

/-- Rehydration of one persisted record:
`{...entry, timestamp: new Date(entry.timestamp)}`. -/
def loadEntry (s : StoredEntry) : Option ParkingEntryD :=
  match parseISOString s.timestamp, entryTypeOfString s.entry_type with
  | some t, some ty =>
    some { id := s.id, plate_number := s.plate_number, timestamp := t,
           entry_type := ty }
  | _, _ => none

/-- Saving the entry list (the `localStorage.setItem` effect). -/
def serializeEntries (l : List ParkingEntryD) : List StoredEntry :=
  l.map serializeEntry

/-- Loading the persisted list (the mount-time `localStorage.getItem` effect). -/
def loadEntries (l : List StoredEntry) : List (Option ParkingEntryD) :=
  l.map loadEntry

/-! ### Dashboard Query (`Dashboard.tsx`) -/

/-- Does `sub` occur at the start of `hay`? -/
def leadsWith : List Char → List Char → Bool
  | [], _ => true
  | _ :: _, [] => false
  | a :: as, b :: bs => a == b && leadsWith as bs

/-- Substring test, `String.prototype.includes`. -/
def hasSub (sub : List Char) : List Char → Bool
  | [] => sub.isEmpty
  | c :: rest => leadsWith sub (c :: rest) || hasSub sub rest

/-- ASCII lower-casing of a string, modelling
`String.prototype.toLowerCase` on the plate/search strings. -/
def toLowerStr (s : String) : String :=
  String.mk (s.data.map Char.toLower)

/-- The dashboard type filter, `"all" | "Entry" | "Exit"`. -/
inductive TypeFilter where
  | all
  | only (t : EntryType)
deriving DecidableEq

/-- The dashboard date filter, `"all" | "today" | "week" | "month"`. -/
inductive DateFilter where
  | all
  | today
  | week
  | month
deriving DecidableEq

/-- Function `filteredEntries` from `Dashboard.tsx`: the three sequential `filter`
passes.  `sameDay` models `entryDate.toDateString() === now.toDateString()`,
the local-calendar-day equality supplied by the platform. -/
def filteredEntries (sameDay : Int → Int → Bool) (entries : List ParkingEntry)
    (searchTerm : String) (filterType : TypeFilter) (dateFilter : DateFilter)
    (now : Int) : List ParkingEntry :=
  let f1 :=
    if searchTerm ≠ "" then
      entries.filter fun entry =>
        hasSub (toLowerStr searchTerm).data (toLowerStr entry.plate_number).data
    else entries
  let f2 :=
    match filterType with
    | .all => f1
    | .only t => f1.filter fun entry => decide (entry.entry_type = t)
  if dateFilter ≠ .all then
    f2.filter fun entry =>
      match dateFilter with
      | .today => sameDay entry.timestamp now
      | .week => decide (now - 7 * 24 * 60 * 60 * 1000 ≤ entry.timestamp)
      | .month => decide (now - 30 * 24 * 60 * 60 * 1000 ≤ entry.timestamp)
      | .all => true
  else f2

/-- The search predicate of the specification: no constraint when the term is
empty, otherwise a case-insensitive substring match on the plate. -/
def matchesSearch (searchTerm : String) (e : ParkingEntry) : Prop :=
  searchTerm = "" ∨
    hasSub (toLowerStr searchTerm).data (toLowerStr e.plate_number).data = true

/-- The direction predicate of the specification: no constraint at `all`,
otherwise an exact direction match. -/
def matchesType (filterType : TypeFilter) (e : ParkingEntry) : Prop :=
  match filterType with
  | .all => True
  | .only t => e.entry_type = t

/-- The time-window predicate of the specification. -/
def matchesDate (sameDay : Int → Int → Bool) (dateFilter : DateFilter)
    (now : Int) (e : ParkingEntry) : Prop :=
  match dateFilter with
  | .all => True
  | .today => sameDay e.timestamp now = true
  | .week => now - 7 * 24 * 60 * 60 * 1000 ≤ e.timestamp
  | .month => now - 30 * 24 * 60 * 60 * 1000 ≤ e.timestamp

/-! ### CSV export (`exportData` in `Dashboard.tsx`) -/

/-- The export header line. -/
def csvHeader : String := "Plate Number,Entry Type,Timestamp"

/-- One CSV line of the export:
`` `${plate_number},${entry_type},${timestamp.toISOString()}` ``. -/
def entryCsvLine (e : ParkingEntryD) : String :=
  e.plate_number ++ "," ++ entryTypeString e.entry_type ++ "," ++
    toISOString e.timestamp

/-- Joining by `Array.prototype.join` with a newline separator. -/
def joinLines : List (List Char) → List Char
  | [] => []
  | [l] => l
  | l :: ls => l ++ '\n' :: joinLines ls

/-- The `csvContent` built by `exportData`: the header line joined with one line per
filtered entry, in order. -/
def exportCsvContent (filtered : List ParkingEntryD) : String :=
  String.mk (joinLines ((csvHeader :: filtered.map entryCsvLine).map String.data))

/-- Reading a text blob back as its newline-separated lines. -/
def splitOnNl : List Char → List (List Char)
  | [] => [[]]
  | c :: rest =>
    if c = '\n' then [] :: splitOnNl rest
    else
      match splitOnNl rest with
      | [] => [[c]]
      | l :: ls => (c :: l) :: ls

/-! ### Theorems -/

/-- Order on `Char` is comparison of the underlying code points. -/
theorem char_le_iff_toNat (a b : Char) : a ≤ b ↔ a.toNat ≤ b.toNat := by
  rw [Char.le_def, UInt32.le_def]
  exact BitVec.le_def ..

/-- Applying `Char.ofNat` to a valid (below-surrogate) code point keeps the code point. -/
theorem toNat_charOfNat {n : ℕ} (h : n < 55296) : (Char.ofNat n).toNat = n := by
  unfold Char.ofNat
  rw [dif_pos (Or.inl h)]
  rfl

/-- The chain of ten global replacements acts on each character exactly as the
single substitution table. -/
theorem substChain_eq_substTable (c : Char) :
    replChar 'U' '0' (replChar 'D' '0' (replChar 'B' '8' (replChar 'G' '6'
      (replChar 'Z' '2' (replChar 'S' '5' (replChar 'L' '1' (replChar 'I' '1'
        (replChar 'Q' '0' (replChar 'O' '0' c))))))))) = substTable c := by
  unfold replChar substTable
  by_cases h1 : c = 'O'
  · subst h1; decide
  by_cases h2 : c = 'Q'
  · subst h2; decide
  by_cases h3 : c = 'I'
  · subst h3; decide
  by_cases h4 : c = 'L'
  · subst h4; decide
  by_cases h5 : c = 'S'
  · subst h5; decide
  by_cases h6 : c = 'Z'
  · subst h6; decide
  by_cases h7 : c = 'G'
  · subst h7; decide
  by_cases h8 : c = 'B'
  · subst h8; decide
  by_cases h9 : c = 'D'
  · subst h9; decide
  by_cases h10 : c = 'U'
  · subst h10; decide
  simp only [if_neg h1, if_neg h2, if_neg h3, if_neg h4, if_neg h5, if_neg h6,
    if_neg h7, if_neg h8, if_neg h9, if_neg h10]

/-- The result of `cleanPlateNumber` is the stripped, upper-cased text with the substitution
table applied to every character. -/
theorem cleanPlateNumber_eq_map (text : String) :
    cleanPlateNumber text =
      String.mk (((text.data.filter isPlateSourceChar).map upperChar).map substTable) := by
  unfold cleanPlateNumber
  generalize (text.data.filter isPlateSourceChar).map upperChar = u
  simp only [replaceAll, List.map_map]
  refine congrArg String.mk (List.map_congr_left fun c _ => ?_)
  simp only [Function.comp]
  exact substChain_eq_substTable c

/-- Upper-casing a character that survives the alphanumeric filter lands in
`A`–`Z` or `0`–`9` (as code points). -/
theorem upperChar_toNat_range (c : Char) (h : isPlateSourceChar c = true) :
    (65 ≤ (upperChar c).toNat ∧ (upperChar c).toNat ≤ 90) ∨
      (48 ≤ (upperChar c).toNat ∧ (upperChar c).toNat ≤ 57) := by
  unfold isPlateSourceChar at h
  simp only [Bool.or_eq_true, Bool.and_eq_true, decide_eq_true_eq,
    char_le_iff_toNat, show ('A' : Char).toNat = 65 from rfl,
    show ('Z' : Char).toNat = 90 from rfl, show ('a' : Char).toNat = 97 from rfl,
    show ('z' : Char).toNat = 122 from rfl, show ('0' : Char).toNat = 48 from rfl,
    show ('9' : Char).toNat = 57 from rfl] at h
  unfold upperChar
  by_cases hl : 'a' ≤ c ∧ c ≤ 'z'
  · rw [if_pos hl]
    rw [char_le_iff_toNat, char_le_iff_toNat] at hl
    have h32 : c.toNat - 32 < 55296 := by
      have := hl.2
      simp only [show ('z' : Char).toNat = 122 from rfl] at this
      omega
    rw [toNat_charOfNat h32]
    have h97 := hl.1
    simp only [show ('a' : Char).toNat = 97 from rfl] at h97
    omega
  · rw [if_neg hl]
    rw [char_le_iff_toNat, char_le_iff_toNat,
      show ('a' : Char).toNat = 97 from rfl,
      show ('z' : Char).toNat = 122 from rfl] at hl
    omega

/-- The substitution table maps the upper-case/digit alphabet into itself. -/
theorem substTable_toNat_range (u : Char)
    (h : (65 ≤ u.toNat ∧ u.toNat ≤ 90) ∨ (48 ≤ u.toNat ∧ u.toNat ≤ 57)) :
    (65 ≤ (substTable u).toNat ∧ (substTable u).toNat ≤ 90) ∨
      (48 ≤ (substTable u).toNat ∧ (substTable u).toNat ≤ 57) := by
  unfold substTable
  by_cases h1 : u = 'O'
  · subst h1; decide
  by_cases h2 : u = 'Q'
  · subst h2; decide
  by_cases h3 : u = 'I'
  · subst h3; decide
  by_cases h4 : u = 'L'
  · subst h4; decide
  by_cases h5 : u = 'S'
  · subst h5; decide
  by_cases h6 : u = 'Z'
  · subst h6; decide
  by_cases h7 : u = 'G'
  · subst h7; decide
  by_cases h8 : u = 'B'
  · subst h8; decide
  by_cases h9 : u = 'D'
  · subst h9; decide
  by_cases h10 : u = 'U'
  · subst h10; decide
  simp only [if_neg h1, if_neg h2, if_neg h3, if_neg h4, if_neg h5, if_neg h6,
    if_neg h7, if_neg h8, if_neg h9, if_neg h10]
  exact h

/-- C3: for every raw OCR input string, every character of the normalized
plate produced by `cleanPlateNumber` lies in `A`–`Z` or `0`–`9`. -/
theorem normalized_plate_alphabet (text : String) :
    ∀ c ∈ (cleanPlateNumber text).data,
      ('A' ≤ c ∧ c ≤ 'Z') ∨ ('0' ≤ c ∧ c ≤ '9') := by
  intro c hc
  rw [cleanPlateNumber_eq_map] at hc
  simp only [List.mem_map, List.mem_filter] at hc
  obtain ⟨u, ⟨c0, ⟨_, hkeep⟩, hup⟩, hsub⟩ := hc
  subst hup
  subst hsub
  have := substTable_toNat_range _ (upperChar_toNat_range c0 hkeep)
  simp only [char_le_iff_toNat, show ('A' : Char).toNat = 65 from rfl,
    show ('Z' : Char).toNat = 90 from rfl, show ('0' : Char).toNat = 48 from rfl,
    show ('9' : Char).toNat = 57 from rfl]
  exact this

/-- C3 witness: a concrete run of the alphabet property. -/
theorem normalized_plate_alphabet_witness :
    ('A' ≤ 'X' ∧ 'X' ≤ 'Z') ∨ ('0' ≤ 'X' ∧ 'X' ≤ '9') :=
  normalized_plate_alphabet "o x!" 'X' (by decide)

/-- C4: `cleanPlateNumber` applies the fixed ordered substitution table
O→0, Q→0, I→1, L→1, S→5, Z→2, G→6, B→8, D→0, U→0 to every occurrence of the
stripped, upper-cased text, and in particular maps `"O0Q"` to `"000"`. -/
theorem substitution_table_every_occurrence (text : String) :
    cleanPlateNumber text =
      String.mk (((text.data.filter isPlateSourceChar).map upperChar).map substTable)
    ∧ cleanPlateNumber "O0Q" = "000" :=
  ⟨cleanPlateNumber_eq_map text, by decide⟩

/-- C2: a cleaned plate string is accepted — set as the extracted plate — iff
its length is in `[4,8]`, it contains at least one letter or at least one
digit, and the confidence is strictly greater than 30; otherwise the extracted
text is set to the empty string. -/
theorem final_revision_acceptance (cleanedText : String) (confidence : ℚ) :
    (captureAccepts cleanedText confidence = true ↔
      (4 ≤ cleanedText.length ∧ cleanedText.length ≤ 8 ∧
        ((∃ c ∈ cleanedText.data, 'A' ≤ c ∧ c ≤ 'Z') ∨
          (∃ c ∈ cleanedText.data, '0' ≤ c ∧ c ≤ '9')) ∧
        30 < confidence))
    ∧ (captureAccepts cleanedText confidence = true →
        extractedTextAfterCapture cleanedText confidence = cleanedText)
    ∧ (captureAccepts cleanedText confidence = false →
        extractedTextAfterCapture cleanedText confidence = "") := by
  refine ⟨?_, ?_, ?_⟩
  · unfold captureAccepts isValidPlateNumber
    by_cases hlen : cleanedText.length < 4 ∨ cleanedText.length > 8
    · rw [if_pos (by simpa using hlen)]
      refine iff_of_false (by simp) ?_
      rintro ⟨h4, h8, _, _⟩
      omega
    · rw [if_neg (by simpa using hlen)]
      push_neg at hlen
      simp only [Bool.and_eq_true, Bool.or_eq_true, List.any_eq_true,
        decide_eq_true_eq]
      constructor
      · rintro ⟨hc, hconf⟩
        exact ⟨by omega, by omega, hc, hconf⟩
      · rintro ⟨_, _, hc, hconf⟩
        exact ⟨hc, hconf⟩
  · intro h
    unfold extractedTextAfterCapture
    rw [if_pos h]
  · intro h
    unfold extractedTextAfterCapture
    rw [h]
    simp

/-- C2 witness: `"AB12"` at confidence 50 is accepted and extracted. -/
theorem final_revision_acceptance_witness :
    captureAccepts "AB12" 50 = true ∧
      extractedTextAfterCapture "AB12" 50 = "AB12" :=
  ⟨by decide, (final_revision_acceptance "AB12" 50).2.1 (by decide)⟩

namespace LocalStore

/-- C1: for a list whose timestamps are not in the future, the request is
rejected as a duplicate iff some existing entry matches plate and direction
with a timestamp in the trailing five-minute window ending now, and a
rejected request leaves the entry list unchanged. -/
theorem duplicate_guard (entries : List ParkingEntry) (plateNumber : String)
    (entryType : EntryType) (now : Int) (newId : String)
    (hpast : ∀ e ∈ entries, e.timestamp ≤ now) :
    ((addParkingEntry entries plateNumber entryType now newId).2 =
        .duplicateDetected ↔ specDuplicate entries plateNumber entryType now)
    ∧ ((addParkingEntry entries plateNumber entryType now newId).2 =
          .duplicateDetected →
        (addParkingEntry entries plateNumber entryType now newId).1 = entries) := by
  have hiff : (findRecentDuplicate entries plateNumber entryType now).isSome = true ↔
      specDuplicate entries plateNumber entryType now := by
    unfold findRecentDuplicate specDuplicate
    rw [List.find?_isSome]
    constructor
    · rintro ⟨e, hmem, hp⟩
      simp only [Bool.and_eq_true, beq_iff_eq, decide_eq_true_eq] at hp
      exact ⟨e, hmem, hp.1.1, hp.1.2, hp.2, hpast e hmem⟩
    · rintro ⟨e, hmem, h1, h2, h3, _⟩
      refine ⟨e, hmem, ?_⟩
      simp only [Bool.and_eq_true, beq_iff_eq, decide_eq_true_eq]
      exact ⟨⟨h1, h2⟩, h3⟩
  unfold addParkingEntry
  cases hfind : findRecentDuplicate entries plateNumber entryType now with
  | some e =>
    simp only [true_and]
    rw [← hiff, hfind]
    simp
  | none =>
    constructor
    · rw [← hiff, hfind]
      simp
    · intro h
      simp at h

/-- C1 witness: with one entry `("ABC123", Entry)` recorded two minutes ago,
an `("ABC123", Entry)` request now is rejected and leaves the list unchanged,
while an `("ABC123", Exit)` request now is recorded. -/
theorem duplicate_guard_witness :
    (addParkingEntry [⟨"e1", "ABC123", 480000, .Entry⟩] "ABC123" .Entry 600000
        "e2").2 = .duplicateDetected
    ∧ (addParkingEntry [⟨"e1", "ABC123", 480000, .Entry⟩] "ABC123" .Entry 600000
        "e2").1 = [⟨"e1", "ABC123", 480000, .Entry⟩]
    ∧ (addParkingEntry [⟨"e1", "ABC123", 480000, .Entry⟩] "ABC123" .Exit 600000
        "e2").2 = .recorded := by
  have h := duplicate_guard [⟨"e1", "ABC123", 480000, .Entry⟩] "ABC123" .Entry
    600000 "e2" (by decide)
  have hdup : (addParkingEntry [⟨"e1", "ABC123", 480000, .Entry⟩] "ABC123"
      .Entry 600000 "e2").2 = .duplicateDetected := by
    refine h.1.mpr ⟨⟨"e1", "ABC123", 480000, .Entry⟩, by decide, by decide,
      by decide, by decide, by decide⟩
  exact ⟨hdup, h.2 hdup, by decide⟩

end LocalStore

namespace RemoteStore

/-- C5: when the external insert yields no created row (or throws), the
in-memory entry list is unchanged and the failure is reported as the
non-fatal save-failure notice. -/
theorem store_failure_atomicity (entries : List ParkingEntry)
    (isDuplicate : Bool) (h : isDuplicate = false) :
    (addParkingEntry entries isDuplicate none).1 = entries ∧
      (addParkingEntry entries isDuplicate none).2 = .saveFailed := by
  subst h
  exact ⟨rfl, rfl⟩

/-- C5 witness: a concrete failed insert leaves a one-entry list unchanged. -/
theorem store_failure_atomicity_witness :
    (addParkingEntry [⟨"e1", "ABC123", 480000, .Entry⟩] false none).1 =
        [⟨"e1", "ABC123", 480000, .Entry⟩] ∧
      (addParkingEntry [⟨"e1", "ABC123", 480000, .Entry⟩] false none).2 =
        .saveFailed :=
  store_failure_atomicity [⟨"e1", "ABC123", 480000, .Entry⟩] false rfl

/-- C10: whenever the duplicate-existence query fails — a reported query
error or a thrown exception — `checkDuplicateEntry` returns `false`, so the
failure never produces the duplicate rejection in `addParkingEntry`. -/
theorem fail_open_duplicate_check (outcome : QueryOutcome)
    (h : outcome = .thrown ∨ ∃ d, outcome = .response true d) :
    checkDuplicateEntry outcome = false ∧
      ∀ (entries : List ParkingEntry) (insertResult : Option ParkingEntry),
        (addParkingEntry entries (checkDuplicateEntry outcome) insertResult).2 ≠
          .duplicateDetected := by
  have hfalse : checkDuplicateEntry outcome = false := by
    rcases h with h | ⟨d, h⟩ <;> subst h <;> rfl
  refine ⟨hfalse, ?_⟩
  intro entries insertResult
  rw [hfalse]
  unfold addParkingEntry
  cases insertResult <;> simp

/-- C10 witness: a thrown query reports no duplicate and a subsequent insert
is not blocked. -/
theorem fail_open_duplicate_check_witness :
    checkDuplicateEntry .thrown = false ∧
      (addParkingEntry [] (checkDuplicateEntry .thrown)
          (some ⟨"e1", "ABC123", 480000, .Entry⟩)).2 ≠ .duplicateDetected :=
  ⟨(fail_open_duplicate_check .thrown (Or.inl rfl)).1,
    (fail_open_duplicate_check .thrown (Or.inl rfl)).2 []
      (some ⟨"e1", "ABC123", 480000, .Entry⟩)⟩

end RemoteStore

/-- C9: the preprocessed frame has the same dimensions; per pixel the alpha
channel is unchanged, the three colour channels are equal, and their common
value is exactly 255 when the rounded luminance scaled by contrast 2.0 plus
brightness 20 exceeds the threshold 128 and exactly 0 otherwise; the grey
level is the rounded luminance `0.299·R + 0.587·G + 0.114·B`. -/
theorem image_preprocessor_binarizes (frame : List Pixel) :
    (preprocessImage frame).length = frame.length
    ∧ ∀ p : Pixel,
        (preprocessPixel p).a = p.a
        ∧ (preprocessPixel p).r = (preprocessPixel p).g
        ∧ (preprocessPixel p).g = (preprocessPixel p).b
        ∧ ((preprocessPixel p).r = 255 ↔ 128 < grayOf p * 2 + 20)
        ∧ ((preprocessPixel p).r = 255 ∨ (preprocessPixel p).r = 0)
        ∧ ((grayOf p : ℤ) =
            round ((299 * p.r + 587 * p.g + 114 * p.b : ℚ) / 1000)) := by
  refine ⟨List.length_map .., fun p => ?_⟩
  have hround : (grayOf p : ℤ) =
      round ((299 * p.r + 587 * p.g + 114 * p.b : ℚ) / 1000) := by
    have hq : (299 * p.r + 587 * p.g + 114 * p.b : ℚ) / 1000 + 1 / 2 =
        ((299 * p.r + 587 * p.g + 114 * p.b + 500 : ℕ) : ℚ) / ((1000 : ℕ) : ℚ) := by
      push_cast
      ring
    rw [round_eq, hq, Rat.floor_natCast_div_natCast]
    unfold grayOf
    norm_cast
  have hpp : preprocessPixel p =
      { r := if 128 < grayOf p * 2 + 20 then 255 else 0,
        g := if 128 < grayOf p * 2 + 20 then 255 else 0,
        b := if 128 < grayOf p * 2 + 20 then 255 else 0, a := p.a } := by
    unfold preprocessPixel
    by_cases hth : 128 < grayOf p * 2 + 20 <;> simp [hth]
  rw [hpp]
  refine ⟨rfl, rfl, rfl, ?_, ?_, hround⟩ <;>
    by_cases hth : 128 < grayOf p * 2 + 20 <;> simp [hth]

/-- Parsing a rendered digit recovers its value. -/
theorem digitVal_digitChar {d : ℕ} (h : d < 10) : digitVal (digitChar d) = d := by
  interval_cases d <;> decide

/-- A rendered digit is a digit character. -/
theorem isDigitChar_digitChar {d : ℕ} (h : d < 10) :
    isDigitChar (digitChar d) = true := by
  interval_cases d <;> decide

/-- ISO-8601 encode/decode round trip on a single in-range timestamp. -/
theorem parse_toISOString (t : DateTimeUTC) (h : ValidDateTime t) :
    parseISOString (toISOString t) = some t := by
  obtain ⟨y, mo, d, hh, mi, s, ms⟩ := t
  dsimp only [ValidDateTime] at h
  obtain ⟨hy, hmo1, hmo2, hd1, hd2, hh1, hmi1, hs1, hms1⟩ := h
  have hmod : ∀ x : ℕ, x % 10 < 10 := fun x => Nat.mod_lt x (by norm_num)
  simp only [toISOString, pad4, pad3, pad2, List.cons_append, List.nil_append]
  unfold parseISOString
  simp only [String.data]
  rw [if_pos]
  · simp only [Option.some.injEq, DateTimeUTC.mk.injEq]
    simp only [show ∀ x : ℕ, digitVal (digitChar (x % 10)) = x % 10 from
      fun x => digitVal_digitChar (hmod x)]
    omega
  · simp only [List.all_cons, List.all_nil,
      show ∀ x : ℕ, isDigitChar (digitChar (x % 10)) = true from
        fun x => isDigitChar_digitChar (hmod x), Bool.and_true, Bool.and_self,
      and_true, true_and]

/-- Direction strings round-trip. -/
theorem entryTypeOfString_entryTypeString (ty : EntryType) :
    entryTypeOfString (entryTypeString ty) = some ty := by
  cases ty <;> rfl

/-- C6: serializing an entry list to the persisted JSON shape and reloading
it reproduces every entry exactly — same plate, same direction, same
timestamp (to the millisecond, hence to the second). -/
theorem localstorage_round_trip (l : List ParkingEntryD)
    (h : ∀ e ∈ l, ValidDateTime e.timestamp) :
    loadEntries (serializeEntries l) = l.map some := by
  unfold loadEntries serializeEntries
  rw [List.map_map]
  refine List.map_congr_left fun e he => ?_
  simp only [Function.comp]
  unfold loadEntry serializeEntry
  simp only
  rw [parse_toISOString e.timestamp (h e he), entryTypeOfString_entryTypeString]

/-- C6 witness: one concrete entry survives the round trip. -/
theorem localstorage_round_trip_witness :
    loadEntries (serializeEntries
        [⟨"e1", "ABC123", ⟨2026, 10, 11, 12, 34, 56, 789⟩, .Entry⟩]) =
      [some ⟨"e1", "ABC123", ⟨2026, 10, 11, 12, 34, 56, 789⟩, .Entry⟩] :=
  localstorage_round_trip
    [⟨"e1", "ABC123", ⟨2026, 10, 11, 12, 34, 56, 789⟩, .Entry⟩]
    (by intro e he; simp at he; subst he; exact ⟨by norm_num, by norm_num,
      by norm_num, by norm_num, by norm_num, by norm_num, by norm_num,
      by norm_num, by norm_num⟩)

/-- C7: dashboard filtering has AND semantics — an entry appears in the
filtered result iff it is in the input list and simultaneously satisfies the
search, direction and time-window predicates, a filter at its `all` value
imposing no constraint. -/
theorem dashboard_filter_and_semantics (sameDay : Int → Int → Bool)
    (entries : List ParkingEntry) (searchTerm : String)
    (filterType : TypeFilter) (dateFilter : DateFilter) (now : Int)
    (e : ParkingEntry) :
    e ∈ filteredEntries sameDay entries searchTerm filterType dateFilter now ↔
      e ∈ entries ∧ matchesSearch searchTerm e ∧ matchesType filterType e ∧
        matchesDate sameDay dateFilter now e := by
  unfold filteredEntries matchesSearch matchesType matchesDate
  by_cases hs : searchTerm = "" <;> cases filterType <;> cases dateFilter <;>
    simp [hs, List.mem_filter] <;> tauto

/-- The cons-step unfolding of `splitOnNl`. -/
theorem splitOnNl_cons (c : Char) (rest : List Char) :
    splitOnNl (c :: rest) =
      if c = '\n' then [] :: splitOnNl rest
      else
        match splitOnNl rest with
        | [] => [[c]]
        | l :: ls => (c :: l) :: ls := by
  rw [splitOnNl]

/-- A newline-free text is a single line. -/
theorem splitOnNl_no_nl (l : List Char) (h : '\n' ∉ l) : splitOnNl l = [l] := by
  induction l with
  | nil => rfl
  | cons c rest ih =>
    simp only [List.mem_cons, not_or] at h
    unfold splitOnNl
    rw [if_neg (fun hc => h.1 hc.symm), ih h.2]

/-- Splitting after a newline-free first line peels it off. -/
theorem splitOnNl_append (l t : List Char) (h : '\n' ∉ l) :
    splitOnNl (l ++ '\n' :: t) = l :: splitOnNl t := by
  induction l with
  | nil =>
    rw [List.nil_append, splitOnNl_cons, if_pos rfl]
  | cons c rest ih =>
    simp only [List.mem_cons, not_or] at h
    rw [List.cons_append, splitOnNl_cons, if_neg (fun hc => h.1 hc.symm),
      ih h.2]

/-- Joining newline-free lines and splitting again is the identity. -/
theorem splitOnNl_joinLines (ls : List (List Char)) (hne : ls ≠ [])
    (h : ∀ l ∈ ls, '\n' ∉ l) : splitOnNl (joinLines ls) = ls := by
  induction ls with
  | nil => exact absurd rfl hne
  | cons l rest ih =>
    cases rest with
    | nil =>
      unfold joinLines
      exact splitOnNl_no_nl l (h l (by simp))
    | cons l2 rest2 =>
      show splitOnNl (l ++ '\n' :: joinLines (l2 :: rest2)) = _
      rw [splitOnNl_append l _ (h l (by simp)),
        ih (by simp) fun x hx => h x (List.mem_cons_of_mem l hx)]

/-- No rendered digit is a newline. -/
theorem digitChar_ne_nl (d : ℕ) : digitChar d ≠ '\n' := by
  unfold digitChar
  split_ifs <;> decide

/-- ISO-8601 strings contain no newline. -/
theorem toISOString_no_nl (t : DateTimeUTC) : '\n' ∉ (toISOString t).data := by
  simp only [toISOString, pad4, pad3, pad2, String.data, List.cons_append,
    List.nil_append, List.mem_cons, List.not_mem_nil, not_or]
  refine ⟨?_, ?_, ?_, ?_, ?_, ?_, ?_, ?_, ?_, ?_, ?_, ?_, ?_, ?_, ?_, ?_, ?_,
    ?_, ?_, ?_, ?_, ?_, ?_, ?_⟩ <;>
    first
      | decide
      | exact fun hc => digitChar_ne_nl _ hc.symm

/-- An export line is newline-free when the plate is. -/
theorem entryCsvLine_no_nl (e : ParkingEntryD)
    (h : '\n' ∉ e.plate_number.data) : '\n' ∉ (entryCsvLine e).data := by
  obtain ⟨eid, epn, ets, ety⟩ := e
  unfold entryCsvLine
  intro hmem
  simp only [String.data_append, List.mem_append] at hmem
  rcases hmem with (((hp | hc) | hty) | hc2) | hiso
  · exact h hp
  · exact absurd hc (by decide)
  · cases ety <;> exact absurd hty (by decide)
  · exact absurd hc2 (by decide)
  · exact toISOString_no_nl ets hiso

/-- C8: the export text splits on newlines into exactly the header line
followed by one comma-separated line per filtered entry, in order, with the
timestamp in ISO-8601; exporting zero entries yields exactly the header. -/
theorem csv_export_shape (filtered : List ParkingEntryD)
    (h : ∀ e ∈ filtered, '\n' ∉ e.plate_number.data) :
    splitOnNl (exportCsvContent filtered).data =
        (csvHeader :: filtered.map entryCsvLine).map String.data
      ∧ exportCsvContent [] = csvHeader := by
  constructor
  · unfold exportCsvContent
    refine splitOnNl_joinLines _ (by simp) ?_
    intro l hl
    rw [List.mem_map] at hl
    obtain ⟨s, hs, rfl⟩ := hl
    rw [List.mem_cons] at hs
    rcases hs with rfl | hs
    · decide
    · rw [List.mem_map] at hs
      obtain ⟨e, he, rfl⟩ := hs
      exact entryCsvLine_no_nl e (h e he)
  · rfl

/-- C8 witness: exporting one concrete entry, and exporting none. -/
theorem csv_export_shape_witness :
    splitOnNl (exportCsvContent
          [⟨"e1", "ABC123", ⟨2026, 10, 11, 12, 34, 56, 789⟩, .Entry⟩]).data =
        (csvHeader :: [⟨"e1", "ABC123", ⟨2026, 10, 11, 12, 34, 56, 789⟩,
          EntryType.Entry⟩].map entryCsvLine).map String.data
      ∧ exportCsvContent [] = csvHeader :=
  csv_export_shape
    [⟨"e1", "ABC123", ⟨2026, 10, 11, 12, 34, 56, 789⟩, .Entry⟩] (by decide)

end SmartPark
